import Mathlib

/-!
Shallow embedding of the client-side subscription engine in
`src/src/client/src/tscSub.c` (TDengine client).

Machine integers (`int64_t`, `TSKEY`) are modelled as `Int`: the engine only
compares, copies and subtracts timestamps and uids, with no wrap-around
behaviour in scope.  The dynamic-array primitives (`taosArraySearch`,
`taosArraySort`, push/clear) are the C library routines `bsearch` and `qsort`
applied with `tscCompareSubscriptionProgress`: `taosArraySearch` is embedded as
an index-returning binary search with explicit fuel, `taosArraySort` as a
comparator sort (`List.insertionSort`).  Files are modelled as the list of
their lines (each line without its terminating newline, as `fgets` plus the
CR/LF-stripping loop of the source leaves it); a missing file is `none`.
-/

namespace TscSub

/-- Mirror of `SSubscriptionProgress` (tscSub.c lines 29-32): one record of
the progress set, a table uid and the highest delivered timestamp key. -/
structure SSubscriptionProgress where
  uid : Int
  key : Int
deriving DecidableEq

instance : Inhabited SSubscriptionProgress := ⟨⟨0, 0⟩⟩

/-- Table kind of the subscribed table, read in `tscUpdateSubscription` from
the table meta (`UTIL_TABLE_IS_NORMAL_TABLE` / `UTIL_TABLE_IS_SUPER_TABLE`).
A normal table carries its uid (`pTableMeta->uid`). -/
inductive TableKind where
  | normal (uid : Int)
  | super
deriving DecidableEq

/-- Mirror of `SSub` (tscSub.c lines 34-46), keeping the fields the claims
observe.  `sqlstr` is the lowercased SQL text stored in the query object;
`hasTimer` is whether `pTimer` is non-NULL; `kind` stands for the table meta
reachable from the command object. -/
structure SSub where
  topic : String
  sqlstr : String
  lastSyncTime : Int
  lastConsumeTime : Int
  interval : Int
  hasTimer : Bool
  kind : TableKind
  progress : List SSubscriptionProgress
deriving DecidableEq

/-- Mirror of `tscCompareSubscriptionProgress` (tscSub.c lines 49-55). -/
def tscCompareSubscriptionProgress (a b : SSubscriptionProgress) : Int :=
  if a.uid > b.uid then 1 else if a.uid < b.uid then -1 else 0

/-- The C library `bsearch` that `taosArraySearch` wraps, on the list of
progress records: classic halving search over the index interval
`[lo, hi)`, driven by `tscCompareSubscriptionProgress` against `target`.
Fuel makes the recursion structural; `length + 1` fuel always suffices. -/
def taosArraySearchGo (l : List SSubscriptionProgress) (target : SSubscriptionProgress) :
    Nat → Nat → Nat → Option Nat
  | _, _, 0 => none
  | lo, hi, fuel + 1 =>
    if lo < hi then
      match l.get? ((lo + hi) / 2) with
      | none => none
      | some e =>
        if tscCompareSubscriptionProgress target e > 0 then
          taosArraySearchGo l target ((lo + hi) / 2 + 1) hi fuel
        else if tscCompareSubscriptionProgress target e < 0 then
          taosArraySearchGo l target lo ((lo + hi) / 2) fuel
        else
          some ((lo + hi) / 2)
    else none

/-- `taosArraySearch(progress, target, tscCompareSubscriptionProgress)`:
binary search over the whole array, returning the index of a record whose
uid compares equal to the target (the C routine returns the pointer). -/
def taosArraySearch (l : List SSubscriptionProgress) (target : SSubscriptionProgress) :
    Option Nat :=
  taosArraySearchGo l target 0 l.length (l.length + 1)

/-- `INT64_MIN`, the sentinel key meaning "deliver from the beginning". -/
def INT64MIN : Int := -(2 ^ 63)

/-- Mirror of `tscGetSubscriptionProgress` (tscSub.c lines 57-69): NULL
handle yields the default; otherwise binary-search the progress set for the
uid and return the stored key, or the default when absent. -/
def tscGetSubscriptionProgress (sub : Option SSub) (uid dflt : Int) : Int :=
  match sub with
  | none => dflt
  | some pSub =>
    match taosArraySearch pSub.progress ⟨uid, 0⟩ with
    | none => dflt
    | some i => ((pSub.progress.get? i).getD default).key

/-- Mirror of `tscUpdateSubscriptionProgress` (tscSub.c lines 71-81): NULL
handle is a no-op; otherwise binary-search for the uid and, when found,
overwrite that record's key in place.  Note the source inserts nothing when
the uid is absent. -/
def tscUpdateSubscriptionProgress (sub : Option SSub) (uid ts : Int) : Option SSub :=
  match sub with
  | none => none
  | some pSub =>
    match taosArraySearch pSub.progress ⟨uid, ts⟩ with
    | none => some pSub
    | some i =>
      some { pSub with
             progress := pSub.progress.set i ⟨((pSub.progress.get? i).getD default).uid, ts⟩ }

/-- Ascending order under `tscCompareSubscriptionProgress`, the relation the
`qsort`-style `taosArraySort` sorts by. -/
abbrev progLE (a b : SSubscriptionProgress) : Prop :=
  tscCompareSubscriptionProgress a b ≤ 0

instance : DecidableRel progLE := fun a b =>
  inferInstanceAs (Decidable (tscCompareSubscriptionProgress a b ≤ 0))

theorem progLE_iff (a b : SSubscriptionProgress) : progLE a b ↔ a.uid ≤ b.uid := by
  simp only [progLE, tscCompareSubscriptionProgress]
  split_ifs <;> omega

instance : IsTotal SSubscriptionProgress progLE :=
  ⟨fun a b => by rw [progLE_iff, progLE_iff]; omega⟩

instance : IsTrans SSubscriptionProgress progLE :=
  ⟨fun a b c hab hbc => by
    rw [progLE_iff] at hab hbc
    rw [progLE_iff]
    omega⟩

/-- Strict uid order: the sorted-unique invariant of the ProgressSet. -/
abbrev ltUid (a b : SSubscriptionProgress) : Prop := a.uid < b.uid

/-- `taosArraySort(progress, tscCompareSubscriptionProgress)`: comparator
sort, embedded as insertion sort by `progLE`. -/
def taosArraySortProgress (l : List SSubscriptionProgress) : List SSubscriptionProgress :=
  List.insertionSort progLE l

/-- Mirror of `tscUpdateSubscription` (tscSub.c lines 209-254).  `now` is the
`taosGetTimestampMs()` read at line 214; `tables` is the outcome of
`getTableList` (the topology resolver), `none` for a failed auxiliary query,
otherwise the uids of the returned `STidTags` records.  Returns the C return
value (1 success, 0 failure) with the mutated subscription.  For a normal
table the resolver is never consulted; for the non-normal kinds the new
progress set is built from the resolver output, keeping the old key of each
uid (default `INT64_MIN`) and sorted by the comparator.  The
vgroup-distribution work on the `STidTags` (lines 246-249) mutates only the
query object and is outside the progress model. -/
def tscUpdateSubscription (pSub : SSub) (now : Int) (tables : Option (List Int)) :
    Int × SSub :=
  let pSub1 := { pSub with lastSyncTime := now }
  match pSub1.kind with
  | TableKind.normal uid =>
    match taosArraySearch pSub1.progress ⟨uid, 0⟩ with
    | some _ => (1, pSub1)
    | none => (1, { pSub1 with progress := [⟨uid, 0⟩] })
  | TableKind.super =>
    match tables with
    | none => (0, pSub1)
    | some uids =>
      let newProgress := uids.map fun u =>
        SSubscriptionProgress.mk u (tscGetSubscriptionProgress (some pSub1) u INT64MIN)
      (1, { pSub1 with progress := taosArraySortProgress newProgress })

/-- The characters C `isspace` accepts, which `sscanf` skips before a
decimal conversion. -/
def isSpaceChar (c : Char) : Bool :=
  c == ' ' || c == '\t' || c == '\n' || c == '\x0b' || c == '\x0c' || c == '\r'

/-- Value of a digit string, most significant first. -/
def digitsVal : List Char → Nat → Nat
  | [], acc => acc
  | c :: cs, acc => digitsVal cs (acc * 10 + (c.toNat - Char.toNat '0'))

/-- Magnitude part of a `%"SCNd64"` conversion: at least one digit, negated
when a minus sign was read.  Returns the value and the unread rest. -/
def parseMag (cs : List Char) (neg : Bool) : Option (Int × List Char) :=
  match cs.takeWhile Char.isDigit with
  | [] => none
  | ds =>
    let n : Int := Int.ofNat (digitsVal ds 0)
    some (if neg then -n else n, cs.dropWhile Char.isDigit)

/-- One `%"SCNd64"` conversion of `sscanf`: skip whitespace, optional sign,
then a digit run. -/
def parseDec (cs0 : List Char) : Option (Int × List Char) :=
  match cs0.dropWhile isSpaceChar with
  | '-' :: r => parseMag r true
  | '+' :: r => parseMag r false
  | cs => parseMag cs false

/-- The `sscanf(buf, "%"SCNd64":%"SCNd64, &p.uid, &p.key)` call of
`tscLoadSubscriptionProgress` (tscSub.c line 295): first component assigned
when the first conversion matched, second when the literal `:` and the
second conversion also matched.  Unassigned components are `none` (the C
variables keep their indeterminate stack contents). -/
def sscanfUidKey (s : String) : Option Int × Option Int :=
  match parseDec s.toList with
  | none => (none, none)
  | some (u, rest) =>
    match rest with
    | ':' :: rest2 =>
      match parseDec rest2 with
      | none => (some u, none)
      | some (k, _) => (some u, some k)
    | _ => (some u, none)

/-- The CR/LF-stripping loop of `tscLoadSubscriptionProgress` (tscSub.c
lines 273-280): the line up to the first CR or LF. -/
def stripCRLF (s : String) : String :=
  String.mk (s.toList.takeWhile fun c => !(c == '\r' || c == '\n'))

/-- The record one iteration of the load loop pushes (tscSub.c lines
294-296): the `sscanf` result is not checked, so fields the conversion did
not assign keep the indeterminate contents of the stack variable `p`,
supplied here as `junk`. -/
def entryOfLine (junk : SSubscriptionProgress) (s : String) : SSubscriptionProgress :=
  match sscanfUidKey s with
  | (some u, some k) => ⟨u, k⟩
  | (some u, none) => ⟨u, junk.key⟩
  | (none, _) => junk

/-- Mirror of `tscSaveSubscriptionProgress` (tscSub.c lines 306-330) as the
lines it writes to `<dataDir>/subscribe/<topic>`: the stored SQL text, then
one `uid:key` line per progress record (`"%"PRId64":%"PRId64"\n"`).  The
directory bookkeeping and write errors leave the subscription unchanged and
are outside the model. -/
def tscSaveSubscriptionProgress (pSub : SSub) : List String :=
  pSub.sqlstr :: pSub.progress.map fun p => toString p.uid ++ ":" ++ toString p.key

/-- Mirror of `tscLoadSubscriptionProgress` (tscSub.c lines 257-304) on a
file given as its list of lines (`none` when `fopen` fails).  Returns the C
return value with the mutated subscription.  A missing file returns 1; an
empty file returns 0; a first line that, stripped of CR/LF, differs from
the stored SQL text returns 0 before touching the progress set.  Otherwise
the progress set is cleared and one record is pushed per remaining line
(`junk i` standing for the indeterminate parts of line `i`); when `fgets`
hits end of file the loop returns 0, so the `taosArraySort` call and the
`return 1` at lines 299-303 are unreachable and the pushed records are kept
in file order. -/
def tscLoadSubscriptionProgress (pSub : SSub) (file : Option (List String))
    (junk : Nat → SSubscriptionProgress) : Int × SSub :=
  match file with
  | none => (1, pSub)
  | some [] => (0, pSub)
  | some (first :: rest) =>
    if stripCRLF first = pSub.sqlstr then
      (0, { pSub with progress := rest.mapIdx fun i line => entryOfLine (junk i) line })
    else
      (0, pSub)

/-- Environment `taos_consume` draws on: `time i` is the value of the `i`-th
`taosGetTimestampMs()` call, `queryCode i` the result code the `i`-th
`tscDoQuery` round trip leaves in `pRes->code` (0 = `TSDB_CODE_SUCCESS`),
`tables i` the resolver outcome of the `i`-th topology refresh. -/
structure ConsumeEnv where
  time : Nat → Int
  queryCode : Nat → Int
  tables : Nat → Option (List Int)

/-- How the retry loop of `taos_consume` ended: the topology refresh failed
(the source returns NULL at once), or the loop finished with the last query
code. -/
inductive LoopExit where
  | refreshFailed
  | finished (code : Int)
deriving DecidableEq

/-- The retry loop of `taos_consume` (tscSub.c lines 387-419).  Arguments
after the subscription: last `pRes->code`, retries left, next clock index,
next refresh index, query attempts so far.  Each iteration checks whether
the last synchronization is older than ten minutes and refreshes if so
(returning NULL on refresh failure), then issues the query; on success it
zeroes `lastSyncTime` and breaks, on failure it loops.  Returns the final
subscription, the exit kind, the attempt count and the next clock index. -/
def consumeLoop (env : ConsumeEnv) :
    SSub → Int → Nat → Nat → Nat → Nat → SSub × LoopExit × Nat × Nat
  | pSub, code, 0, tclk, _, attempts => (pSub, LoopExit.finished code, attempts, tclk)
  | pSub, _, r + 1, tclk, rclk, attempts =>
    if env.time tclk - pSub.lastSyncTime > 10 * 60 * 1000 then
      match tscUpdateSubscription pSub (env.time (tclk + 1)) (env.tables rclk) with
      | (0, pSub2) => (pSub2, LoopExit.refreshFailed, attempts, tclk + 2)
      | (_, pSub2) =>
        if env.queryCode attempts = 0 then
          ({ pSub2 with lastSyncTime := 0 }, LoopExit.finished 0, attempts + 1, tclk + 2)
        else
          consumeLoop env pSub2 (env.queryCode attempts) r (tclk + 2) (rclk + 1) (attempts + 1)
    else
      if env.queryCode attempts = 0 then
        ({ pSub with lastSyncTime := 0 }, LoopExit.finished 0, attempts + 1, tclk + 1)
      else
        consumeLoop env pSub (env.queryCode attempts) r (tclk + 1) rclk (attempts + 1)

/-- Mirror of `taos_consume` (tscSub.c lines 370-429).  A NULL handle
returns NULL at once.  The entry `tscSaveSubscriptionProgress` call writes
the progress file and does not change the subscription.  When no timer
drives the subscription one clock read paces the call (the sleep has no
state effect).  Then the three-round retry loop runs; afterwards a non-zero
last code returns NULL, and on success `lastConsumeTime` is set from a
final clock read and the result handle is returned.  The returned triple is
the final subscription state, whether the result was non-NULL, and the
number of query attempts. -/
def taos_consume (env : ConsumeEnv) (sub : Option SSub) : Option SSub × Bool × Nat :=
  match sub with
  | none => (none, false, 0)
  | some pSub =>
    let tclk0 : Nat := if pSub.hasTimer then 0 else 1
    match consumeLoop env pSub 0 3 tclk0 0 0 with
    | (pSub2, LoopExit.refreshFailed, attempts, _) => (some pSub2, false, attempts)
    | (pSub2, LoopExit.finished code, attempts, tclk) =>
      if code = 0 then
        (some { pSub2 with lastConsumeTime := env.time tclk }, true, attempts)
      else
        (some pSub2, false, attempts)

theorem cmp_pos_iff (a b : SSubscriptionProgress) :
    tscCompareSubscriptionProgress a b > 0 ↔ a.uid > b.uid := by
  simp only [tscCompareSubscriptionProgress]
  split_ifs <;> omega

theorem cmp_neg_iff (a b : SSubscriptionProgress) :
    tscCompareSubscriptionProgress a b < 0 ↔ a.uid < b.uid := by
  simp only [tscCompareSubscriptionProgress]
  split_ifs <;> omega

/-- Any index the binary search returns carries a record whose uid equals
the target uid, sorted or not. -/
theorem searchGo_sound (l : List SSubscriptionProgress) (t : SSubscriptionProgress) :
    ∀ fuel lo hi i, taosArraySearchGo l t lo hi fuel = some i →
      ∃ e, l.get? i = some e ∧ e.uid = t.uid := by
  intro fuel
  induction fuel with
  | zero => intro lo hi i h; simp [taosArraySearchGo] at h
  | succ n ih =>
    intro lo hi i h
    simp only [taosArraySearchGo] at h
    by_cases hlh : lo < hi
    · rw [if_pos hlh] at h
      cases hget : l.get? ((lo + hi) / 2) with
      | none => rw [hget] at h; exact absurd h (by simp)
      | some e =>
        rw [hget] at h
        simp only [] at h
        by_cases h1 : tscCompareSubscriptionProgress t e > 0
        · rw [if_pos h1] at h
          exact ih _ _ _ h
        · rw [if_neg h1] at h
          by_cases h2 : tscCompareSubscriptionProgress t e < 0
          · rw [if_pos h2] at h
            exact ih _ _ _ h
          · rw [if_neg h2] at h
            have hi2 : (lo + hi) / 2 = i := by injection h
            refine ⟨e, hi2 ▸ hget, ?_⟩
            have := (cmp_pos_iff t e).not.mp h1
            have := (cmp_neg_iff t e).not.mp h2
            omega
    · rw [if_neg hlh] at h
      exact absurd h (by simp)

/-- On a strictly uid-sorted list the binary search finds every uid the list
holds, provided the target index lies in the searched interval and the fuel
covers its width. -/
theorem searchGo_complete (l : List SSubscriptionProgress) (t : SSubscriptionProgress)
    (hs : List.Sorted ltUid l) :
    ∀ fuel lo hi j, (hj : j < l.length) → lo ≤ j → j < hi → hi ≤ l.length →
      hi - lo ≤ fuel → (l.get ⟨j, hj⟩).uid = t.uid →
      (taosArraySearchGo l t lo hi fuel).isSome := by
  intro fuel
  induction fuel with
  | zero => intro lo hi j hj h1 h2 h3 h4 h5; omega
  | succ n ih =>
    intro lo hi j hj h1 h2 h3 h4 h5
    have hlh : lo < hi := lt_of_le_of_lt h1 h2
    have hmidlt : (lo + hi) / 2 < l.length := by omega
    have hget : l.get? ((lo + hi) / 2) = some (l.get ⟨(lo + hi) / 2, hmidlt⟩) :=
      List.get?_eq_get hmidlt
    simp only [taosArraySearchGo, if_pos hlh, hget]
    by_cases hgt : tscCompareSubscriptionProgress t (l.get ⟨(lo + hi) / 2, hmidlt⟩) > 0
    · rw [if_pos hgt]
      have htu := (cmp_pos_iff t _).mp hgt
      have hjmid : (lo + hi) / 2 < j := by
        by_contra hc
        push_neg at hc
        have hle : (l.get ⟨j, hj⟩).uid ≤ (l.get ⟨(lo + hi) / 2, hmidlt⟩).uid := by
          rcases Nat.lt_or_ge j ((lo + hi) / 2) with hlt | hge
          · exact le_of_lt (hs.rel_get_of_lt hlt)
          · have : j = (lo + hi) / 2 := by omega
            subst this
            exact le_rfl
        omega
      exact ih ((lo + hi) / 2 + 1) hi j hj (by omega) h2 h3 (by omega) h5
    · rw [if_neg hgt]
      by_cases hlt2 : tscCompareSubscriptionProgress t (l.get ⟨(lo + hi) / 2, hmidlt⟩) < 0
      · rw [if_pos hlt2]
        have htu := (cmp_neg_iff t _).mp hlt2
        have hjmid : j < (lo + hi) / 2 := by
          by_contra hc
          push_neg at hc
          have hle : (l.get ⟨(lo + hi) / 2, hmidlt⟩).uid ≤ (l.get ⟨j, hj⟩).uid := by
            rcases Nat.lt_or_ge ((lo + hi) / 2) j with hlt3 | hge
            · exact le_of_lt (hs.rel_get_of_lt hlt3)
            · have : (lo + hi) / 2 = j := by omega
              subst this
              exact le_rfl
          omega
        exact ih lo ((lo + hi) / 2) j hj h1 hjmid (by omega) (by omega) h5
      · rw [if_neg hlt2]
        simp

/-- A strictly uid-sorted list holds at most one record per uid. -/
theorem mem_uid_unique (l : List SSubscriptionProgress) (hs : List.Sorted ltUid l) :
    ∀ a ∈ l, ∀ b ∈ l, a.uid = b.uid → a = b := by
  induction l with
  | nil => simp
  | cons x xs ih =>
    intro a ha b hb heq
    have hx := List.sorted_cons.mp hs
    rcases List.mem_cons.mp ha with rfl | ha2
    · rcases List.mem_cons.mp hb with rfl | hb2
      · rfl
      · have := hx.1 b hb2
        exact absurd this (by omega)
    · rcases List.mem_cons.mp hb with rfl | hb2
      · have := hx.1 a ha2
        exact absurd this (by omega)
      · exact ih hx.2 a ha2 b hb2 heq

theorem search_sound (l : List SSubscriptionProgress) (t : SSubscriptionProgress) (i : Nat)
    (h : taosArraySearch l t = some i) :
    ∃ e, l.get? i = some e ∧ e.uid = t.uid :=
  searchGo_sound l t _ _ _ _ h

theorem search_isSome_of_mem (l : List SSubscriptionProgress) (t : SSubscriptionProgress)
    (hs : List.Sorted ltUid l) (e : SSubscriptionProgress) (he : e ∈ l)
    (heu : e.uid = t.uid) : (taosArraySearch l t).isSome := by
  obtain ⟨⟨j, hj⟩, rfl⟩ := List.mem_iff_get.mp he
  exact searchGo_complete l t hs (l.length + 1) 0 l.length j hj (Nat.zero_le _) hj le_rfl
    (by omega) heu

theorem search_eq_none_of_absent (l : List SSubscriptionProgress)
    (t : SSubscriptionProgress) (h : ∀ e ∈ l, e.uid ≠ t.uid) :
    taosArraySearch l t = none := by
  cases hsearch : taosArraySearch l t with
  | none => rfl
  | some i =>
    obtain ⟨e, hget, heu⟩ := search_sound l t i hsearch
    exact absurd heu (h e (List.get?_mem hget))

/-- On a sorted progress set, `tscGetSubscriptionProgress` returns the key
stored for a uid the set holds. -/
theorem get_progress_of_mem (s : SSub) (hs : List.Sorted ltUid s.progress)
    (e : SSubscriptionProgress) (he : e ∈ s.progress) (d : Int) :
    tscGetSubscriptionProgress (some s) e.uid d = e.key := by
  have hsome := search_isSome_of_mem s.progress ⟨e.uid, 0⟩ hs e he rfl
  obtain ⟨i, hi⟩ := Option.isSome_iff_exists.mp hsome
  obtain ⟨e2, hget, heu⟩ := search_sound _ _ i hi
  have he2 : e2 ∈ s.progress := List.get?_mem hget
  have heq : e2 = e := mem_uid_unique _ hs e2 he2 e he heu
  rw [List.get?_eq_getElem?] at hget
  simp [tscGetSubscriptionProgress, hi, hget, heq]

/-- `tscGetSubscriptionProgress` returns the default for a uid the set does
not hold (no sortedness needed: the search only ever returns matching
records). -/
theorem get_progress_of_absent (s : SSub) (uid d : Int)
    (h : ∀ e ∈ s.progress, e.uid ≠ uid) :
    tscGetSubscriptionProgress (some s) uid d = d := by
  have hnone := search_eq_none_of_absent s.progress ⟨uid, 0⟩ h
  simp [tscGetSubscriptionProgress, hnone]

/-- Claim C10: with a NULL subscription handle, `tscGetSubscriptionProgress`
returns the default key and `tscUpdateSubscriptionProgress` changes nothing;
neither touches any subscription state. -/
theorem c10_null_handle_is_safe (uid dflt ts : Int) :
    tscGetSubscriptionProgress none uid dflt = dflt ∧
    tscUpdateSubscriptionProgress none uid ts = none :=
  ⟨rfl, rfl⟩

/-- Fresh subscription fixture for the mismatching-SQL load (claim C5). -/
def subC5 : SSub :=
  { topic := "t1", sqlstr := "select * from s", lastSyncTime := 0, lastConsumeTime := 0,
    interval := 0, hasTimer := false, kind := TableKind.super, progress := [] }

/-- Claim C5: when the first line of the progress file, stripped of trailing
CR/LF, differs from the stored SQL text, `tscLoadSubscriptionProgress` takes
the mismatch exit (return 0 before the load loop) and leaves the progress
set untouched; in particular a subscription whose progress set is empty, as
at the only call site inside `taos_subscribe`, ends with an empty progress
set and no entry of the file is loaded. -/
theorem c5_load_sql_mismatch (s : SSub) (first : String) (rest : List String)
    (junk : Nat → SSubscriptionProgress) (hm : stripCRLF first ≠ s.sqlstr) :
    tscLoadSubscriptionProgress s (some (first :: rest)) junk = (0, s) ∧
    (s.progress = [] →
      (tscLoadSubscriptionProgress s (some (first :: rest)) junk).2.progress = []) := by
  have h1 : tscLoadSubscriptionProgress s (some (first :: rest)) junk = (0, s) := by
    simp [tscLoadSubscriptionProgress, hm]
  exact ⟨h1, fun hp => by rw [h1]; exact hp⟩

/-- Witness for C5: the stored SQL differs from the file head by one word,
the load reports 0 and the progress set stays empty. -/
theorem c5_witness :
    stripCRLF "select ts from s" ≠ subC5.sqlstr ∧
    (tscLoadSubscriptionProgress subC5 (some ["select ts from s", "10:5"])
        (fun _ => default) = (0, subC5) ∧
      (subC5.progress = [] →
        (tscLoadSubscriptionProgress subC5 (some ["select ts from s", "10:5"])
            (fun _ => default)).2.progress = [])) :=
  ⟨by decide,
    c5_load_sql_mismatch subC5 "select ts from s" ["10:5"] (fun _ => default) (by decide)⟩

/-- Subscription fixture with saved progress for the round-trip (claim C3). -/
def subC3 : SSub :=
  { topic := "t1", sqlstr := "select * from s", lastSyncTime := 0, lastConsumeTime := 0,
    interval := 0, hasTimer := false, kind := TableKind.super,
    progress := [⟨10, 5⟩, ⟨20, 7⟩] }

/-- Claim C3 (code bug): saving and reloading an unchanged subscription does
restore an equal progress set, but because the read loop of
`tscLoadSubscriptionProgress` returns at end of file (tscSub.c line 292),
the load reports 0 — the same value as the mismatch and corrupt-file exits —
and the success epilogue that reports 1 (line 303) is unreachable. -/
theorem c3_roundtrip_restores_but_reports_corrupt (junk : Nat → SSubscriptionProgress) :
    tscLoadSubscriptionProgress subC3 (some (tscSaveSubscriptionProgress subC3)) junk
      = (0, subC3) := rfl

/-- Fresh subscription fixture for the unsorted-file load (claim C2). -/
def subC2 : SSub :=
  { topic := "t1", sqlstr := "select * from s", lastSyncTime := 0, lastConsumeTime := 0,
    interval := 0, hasTimer := false, kind := TableKind.super, progress := [] }

/-- Claim C2 (code bug): after `tscLoadSubscriptionProgress` the progress
set is exactly in file order and is not re-sorted: the `taosArraySort` call
at tscSub.c line 301 sits after a loop whose only exit is `return 0`, so a
file whose entry lines are out of order leaves an unsorted progress set. -/
theorem c2_load_leaves_progress_unsorted (junk : Nat → SSubscriptionProgress) :
    tscLoadSubscriptionProgress subC2 (some ["select * from s", "20:1", "10:2"]) junk
        = (0, { subC2 with progress := [⟨20, 1⟩, ⟨10, 2⟩] }) ∧
    ¬ List.Sorted ltUid
        (tscLoadSubscriptionProgress subC2
          (some ["select * from s", "20:1", "10:2"]) junk).2.progress :=
  ⟨rfl, by
    have h1 : (tscLoadSubscriptionProgress subC2
        (some ["select * from s", "20:1", "10:2"]) junk).2.progress
          = [⟨20, 1⟩, ⟨10, 2⟩] := rfl
    rw [h1]
    decide⟩

/-- Fresh subscription fixture for the malformed-line load (claim C6). -/
def subC6 : SSub :=
  { topic := "t1", sqlstr := "select * from s", lastSyncTime := 0, lastConsumeTime := 0,
    interval := 0, hasTimer := false, kind := TableKind.super, progress := [] }

/-- Claim C6 (code bug): the load loop never stops at a malformed line: the
`sscanf` return value is ignored (tscSub.c lines 294-296), so the line
`garbage` pushes a record carrying the indeterminate stack contents
(`junk 1`) and the following well-formed line is still loaded.  The claim
expects the load to end at the malformed line with exactly the one
preceding entry; the code yields three entries for any stack contents. -/
theorem c6_load_pushes_malformed_lines (junk : Nat → SSubscriptionProgress) :
    (tscLoadSubscriptionProgress subC6
        (some ["select * from s", "10:5", "garbage", "20:7"]) junk).2.progress
      = [⟨10, 5⟩, junk 1, ⟨20, 7⟩] := rfl

/-- Claim C1: a topology refresh of a super-table subscription keeps the
prior record of every resolver uid the set already held, enters every new
resolver uid with key `INT64_MIN`, and drops every uid the resolver did not
return.  The sortedness hypothesis is the standing invariant the binary
search inside `tscGetSubscriptionProgress` relies on. -/
theorem c1_super_refresh_progress (s : SSub) (now : Int) (uids : List Int)
    (hk : s.kind = TableKind.super) (hs : List.Sorted ltUid s.progress) :
    (∀ e ∈ s.progress, e.uid ∈ uids →
      e ∈ (tscUpdateSubscription s now (some uids)).2.progress) ∧
    (∀ u ∈ uids, (∀ e ∈ s.progress, e.uid ≠ u) →
      (⟨u, INT64MIN⟩ : SSubscriptionProgress)
        ∈ (tscUpdateSubscription s now (some uids)).2.progress) ∧
    (∀ u : Int, u ∉ uids →
      ∀ e ∈ (tscUpdateSubscription s now (some uids)).2.progress, e.uid ≠ u) := by
  have hgetSame : ∀ u d, tscGetSubscriptionProgress
        (some { s with lastSyncTime := now, kind := TableKind.super }) u d
      = tscGetSubscriptionProgress (some s) u d := fun u d => rfl
  have hred : (tscUpdateSubscription s now (some uids)).2.progress
      = taosArraySortProgress (uids.map fun u =>
          SSubscriptionProgress.mk u (tscGetSubscriptionProgress (some s) u INT64MIN)) := by
    simp [tscUpdateSubscription, hk, hgetSame]
  have hmem : ∀ x : SSubscriptionProgress,
      x ∈ (tscUpdateSubscription s now (some uids)).2.progress ↔
        x ∈ uids.map fun u =>
          SSubscriptionProgress.mk u (tscGetSubscriptionProgress (some s) u INT64MIN) := by
    intro x
    rw [hred]
    exact List.mem_insertionSort progLE
  refine ⟨?_, ?_, ?_⟩
  · intro e he hu
    rw [hmem]
    refine List.mem_map.mpr ⟨e.uid, hu, ?_⟩
    have hkey := get_progress_of_mem s hs e he INT64MIN
    rw [hkey]
  · intro u hu habs
    rw [hmem]
    refine List.mem_map.mpr ⟨u, hu, ?_⟩
    rw [get_progress_of_absent s u INT64MIN habs]
  · intro u hu e he
    rw [hmem] at he
    obtain ⟨u2, hu2, rfl⟩ := List.mem_map.mp he
    intro hc
    simp only [] at hc
    exact hu (hc ▸ hu2)

/-- Sorted two-record fixture for the refresh witness (claim C1). -/
def subC1 : SSub :=
  { topic := "t1", sqlstr := "select * from s", lastSyncTime := 0, lastConsumeTime := 0,
    interval := 0, hasTimer := false, kind := TableKind.super,
    progress := [⟨10, 5⟩, ⟨30, 7⟩] }

/-- Witness for C1: resolver returns uids 10 and 20; uid 10 survives with key
5, uid 20 enters with `INT64_MIN`, uid 30 disappears. -/
theorem c1_witness :
    subC1.kind = TableKind.super ∧ List.Sorted ltUid subC1.progress ∧
    ((∀ e ∈ subC1.progress, e.uid ∈ [(10 : Int), 20] →
        e ∈ (tscUpdateSubscription subC1 50 (some [10, 20])).2.progress) ∧
      (∀ u ∈ [(10 : Int), 20], (∀ e ∈ subC1.progress, e.uid ≠ u) →
        (⟨u, INT64MIN⟩ : SSubscriptionProgress)
          ∈ (tscUpdateSubscription subC1 50 (some [10, 20])).2.progress) ∧
      (∀ u : Int, u ∉ [(10 : Int), 20] →
        ∀ e ∈ (tscUpdateSubscription subC1 50 (some [10, 20])).2.progress, e.uid ≠ u)) :=
  ⟨rfl, by decide, c1_super_refresh_progress subC1 50 [10, 20] rfl (by decide)⟩

/-- One-record fixture holding only uid 5, for the C7 counterexample. -/
def subC7 : SSub :=
  { topic := "t1", sqlstr := "select * from s", lastSyncTime := 0, lastConsumeTime := 0,
    interval := 0, hasTimer := false, kind := TableKind.super, progress := [⟨5, 1⟩] }

/-- Counterexample to C7 as stated: updating progress for the absent uid 10
leaves the subscription unchanged — no entry `(10, 99)` is inserted, so the
insert half of the claimed upsert semantics fails on the code. -/
theorem c7_counterexample :
    tscUpdateSubscriptionProgress (some subC7) 10 99 = some subC7 ∧
    ∀ e ∈ subC7.progress, e.uid ≠ 10 := by decide

/-- Claim C7 as amended: `tscUpdateSubscriptionProgress` overwrites the
stored key when the uid is present in the (sorted) progress set, and is a
no-op when the uid is absent — the source has no insert path (tscSub.c
lines 71-81). -/
theorem c7_progress_update_overwrites_only (s : SSub) (uid ts : Int)
    (hs : List.Sorted ltUid s.progress) :
    ((∃ e ∈ s.progress, e.uid = uid) →
      tscUpdateSubscriptionProgress (some s) uid ts =
        some { s with progress :=
          s.progress.map fun x => if x.uid = uid then ⟨x.uid, ts⟩ else x }) ∧
    ((∀ e ∈ s.progress, e.uid ≠ uid) →
      tscUpdateSubscriptionProgress (some s) uid ts = some s) := by
  constructor
  · rintro ⟨e, he, heu⟩
    have hsome := search_isSome_of_mem s.progress ⟨uid, ts⟩ hs e he heu
    obtain ⟨i, hi⟩ := Option.isSome_iff_exists.mp hsome
    obtain ⟨e2, hget, heu2⟩ := search_sound _ _ i hi
    have heu3 : e2.uid = uid := heu2
    obtain ⟨hilt, hgn⟩ := List.get?_eq_some.mp hget
    have huid : ∀ j, (hj : j < s.progress.length) → j ≠ i →
        (s.progress.get ⟨j, hj⟩).uid ≠ uid := by
      intro j hj hne hc
      rcases Nat.lt_or_ge j i with hlt | hge
      · have hrel := hs.rel_get_of_lt (a := ⟨j, hj⟩) (b := ⟨i, hilt⟩) hlt
        rw [hgn] at hrel
        simp only [ltUid] at hrel
        omega
      · have hlt2 : i < j := by omega
        have hrel := hs.rel_get_of_lt (a := ⟨i, hilt⟩) (b := ⟨j, hj⟩) hlt2
        rw [hgn] at hrel
        simp only [ltUid] at hrel
        omega
    have hlist : s.progress.set i ⟨e2.uid, ts⟩
        = s.progress.map fun x => if x.uid = uid then ⟨x.uid, ts⟩ else x := by
      apply List.ext_getElem
      · simp
      · intro j hj1 hj2
        have hj : j < s.progress.length := by simpa using hj1
        rw [List.getElem_set, List.getElem_map]
        by_cases hij : i = j
        · subst hij
          rw [if_pos rfl]
          have hgi : s.progress[i] = e2 := by
            rw [← List.get_eq_getElem s.progress ⟨i, hilt⟩]
            exact hgn
          rw [hgi, if_pos heu3]
        · rw [if_neg hij]
          have hne : (s.progress[j]).uid ≠ uid := by
            rw [← List.get_eq_getElem s.progress ⟨j, hj⟩]
            exact huid j hj (fun h => hij h.symm)
          rw [if_neg hne]
    simp only [tscUpdateSubscriptionProgress, hi, hget, Option.getD_some]
    rw [hlist]
  · intro habs
    have hnone := search_eq_none_of_absent s.progress ⟨uid, ts⟩ habs
    simp [tscUpdateSubscriptionProgress, hnone]

/-- One-record fixture holding uid 10, for the C7 witness. -/
def subC7w : SSub :=
  { topic := "t1", sqlstr := "select * from s", lastSyncTime := 0, lastConsumeTime := 0,
    interval := 0, hasTimer := false, kind := TableKind.super, progress := [⟨10, 5⟩] }

/-- Witness for the amended C7 at uid 10, key 99: present uid overwritten,
absent uid untouched. -/
theorem c7_witness :
    List.Sorted ltUid subC7w.progress ∧
    (((∃ e ∈ subC7w.progress, e.uid = 10) →
        tscUpdateSubscriptionProgress (some subC7w) 10 99 =
          some { subC7w with progress :=
            subC7w.progress.map fun x => if x.uid = 10 then ⟨x.uid, 99⟩ else x }) ∧
      ((∀ e ∈ subC7w.progress, e.uid ≠ 10) →
        tscUpdateSubscriptionProgress (some subC7w) 10 99 = some subC7w)) :=
  ⟨by decide, c7_progress_update_overwrites_only subC7w 10 99 (by decide)⟩

/-- Normal-table fixture whose progress set holds a second, foreign uid,
for the C9 counterexample. -/
def subC9 : SSub :=
  { topic := "t1", sqlstr := "select * from tb", lastSyncTime := 0, lastConsumeTime := 0,
    interval := 0, hasTimer := false, kind := TableKind.normal 1,
    progress := [⟨1, 5⟩, ⟨2, 7⟩] }

/-- Counterexample to C9 as stated: the normal-table branch of
`tscUpdateSubscription` only checks that the table uid is present (tscSub.c
lines 217-226); a progress set `[(1, 5), (2, 7)]` that already holds uid 1
survives the refresh whole, so the set is not of length 1 afterwards. -/
theorem c9_counterexample :
    (tscUpdateSubscription subC9 55 none).2.progress.length ≠ 1 := by decide

/-- Claim C9 as amended: after a normal-table refresh the progress set
contains the table uid, the refresh reports success, a set lacking the uid
is replaced by exactly `[(uid, 0)]`, and a (sorted) set already holding the
uid is left unchanged — so it has length 1 afterwards only when it already
had. -/
theorem c9_normal_refresh (s : SSub) (now : Int) (tables : Option (List Int)) (uid : Int)
    (hk : s.kind = TableKind.normal uid) (hs : List.Sorted ltUid s.progress) :
    (tscUpdateSubscription s now tables).1 = 1 ∧
    (∃ e ∈ (tscUpdateSubscription s now tables).2.progress, e.uid = uid) ∧
    ((∀ e ∈ s.progress, e.uid ≠ uid) →
      (tscUpdateSubscription s now tables).2.progress = [⟨uid, 0⟩]) ∧
    ((∃ e ∈ s.progress, e.uid = uid) →
      (tscUpdateSubscription s now tables).2.progress = s.progress) := by
  cases hsearch : taosArraySearch s.progress ⟨uid, 0⟩ with
  | some i =>
    obtain ⟨e2, hget, heu2⟩ := search_sound _ _ i hsearch
    have he2 : e2 ∈ s.progress := List.get?_mem hget
    have hred : tscUpdateSubscription s now tables
        = (1, { s with lastSyncTime := now }) := by
      simp [tscUpdateSubscription, hk, hsearch]
    refine ⟨by rw [hred], ⟨e2, by rw [hred]; exact he2, heu2⟩, ?_, ?_⟩
    · intro habs
      exact absurd heu2 (habs e2 he2)
    · intro _
      rw [hred]
  | none =>
    have hred : tscUpdateSubscription s now tables
        = (1, { s with lastSyncTime := now, progress := [⟨uid, 0⟩] }) := by
      simp [tscUpdateSubscription, hk, hsearch]
    refine ⟨by rw [hred], ⟨⟨uid, 0⟩, by rw [hred]; exact List.mem_singleton_self _, rfl⟩,
      fun _ => by rw [hred], ?_⟩
    rintro ⟨e, he, heu⟩
    have hsome := search_isSome_of_mem s.progress ⟨uid, 0⟩ hs e he heu
    rw [hsearch] at hsome
    exact absurd hsome (by simp)

/-- Normal-table fixture with empty progress, for the C9 witness. -/
def subC9w : SSub :=
  { topic := "t1", sqlstr := "select * from tb", lastSyncTime := 0, lastConsumeTime := 0,
    interval := 0, hasTimer := false, kind := TableKind.normal 1, progress := [] }

/-- Witness for the amended C9: an empty progress set becomes `[(1, 0)]`. -/
theorem c9_witness :
    subC9w.kind = TableKind.normal 1 ∧ List.Sorted ltUid subC9w.progress ∧
    ((tscUpdateSubscription subC9w 55 none).1 = 1 ∧
      (∃ e ∈ (tscUpdateSubscription subC9w 55 none).2.progress, e.uid = 1) ∧
      ((∀ e ∈ subC9w.progress, e.uid ≠ 1) →
        (tscUpdateSubscription subC9w 55 none).2.progress = [⟨1, 0⟩]) ∧
      ((∃ e ∈ subC9w.progress, e.uid = 1) →
        (tscUpdateSubscription subC9w 55 none).2.progress = subC9w.progress)) :=
  ⟨rfl, by decide, c9_normal_refresh subC9w 55 none 1 rfl (by decide)⟩

/-- Stale fixture for the C4 counterexample: last synchronized at time 0,
timer-driven, so the first retry iteration must refresh the topology. -/
def subC4cex : SSub :=
  { topic := "t1", sqlstr := "select * from s", lastSyncTime := 0, lastConsumeTime := 0,
    interval := 0, hasTimer := true, kind := TableKind.super, progress := [⟨10, 5⟩] }

/-- Environment for the C4 counterexample: the clock stands just past the
ten-minute staleness bound, every query attempt would fail, and the
topology resolver fails too. -/
def envC4cex : ConsumeEnv :=
  { time := fun _ => 600001, queryCode := fun _ => 1, tables := fun _ => none }

/-- Counterexample to C4 as stated: on a stale subscription every query
attempt would fail (the antecedent of the claim holds), yet the failing
topology refresh at tscSub.c line 392 makes `taos_consume` return NULL
after 0 query attempts, not 3 — and `lastSyncTime` has already been moved
by the refresh. -/
theorem c4_counterexample :
    (∀ i, envC4cex.queryCode i ≠ 0) ∧
    taos_consume envC4cex (some subC4cex)
      = (some { subC4cex with lastSyncTime := 600001 }, false, 0) :=
  ⟨fun i => by norm_num [envC4cex], by decide⟩

/-- Claim C4 as amended: when every query attempt fails and no topology
refresh is triggered during the call (every clock read stays within ten
minutes of the last synchronization, as for a freshly synchronized
subscription), `taos_consume` runs exactly 3 query attempts, returns NULL,
and the subscription — its progress keys included — is unchanged.  Without
the no-refresh condition the retry ceiling fails: a failing refresh returns
NULL after 0 attempts, and a succeeding one can change the progress set. -/
theorem c4_retry_ceiling (s : SSub) (env : ConsumeEnv)
    (hfail : ∀ i, env.queryCode i ≠ 0)
    (hfresh : ∀ n, env.time n - s.lastSyncTime ≤ 10 * 60 * 1000) :
    taos_consume env (some s) = (some s, false, 3) := by
  have hnr : ∀ tclk, ¬ (env.time tclk - s.lastSyncTime > 10 * 60 * 1000) := by
    intro tclk
    have := hfresh tclk
    omega
  have step : ∀ (r tclk rclk attempts : Nat) (code : Int),
      consumeLoop env s code (r + 1) tclk rclk attempts
        = consumeLoop env s (env.queryCode attempts) r (tclk + 1) rclk (attempts + 1) := by
    intro r tclk rclk attempts code
    simp only [consumeLoop, if_neg (hnr tclk), if_neg (hfail attempts)]
  have hbase : ∀ (tclk rclk attempts : Nat) (code : Int),
      consumeLoop env s code 0 tclk rclk attempts
        = (s, LoopExit.finished code, attempts, tclk) := by
    intro tclk rclk attempts code
    simp only [consumeLoop]
  simp only [taos_consume, step, hbase]
  rw [if_neg (hfail 2)]

/-- Freshly synchronized fixture for the C4 witness. -/
def subC4 : SSub :=
  { topic := "t1", sqlstr := "select * from s", lastSyncTime := 0, lastConsumeTime := 0,
    interval := 0, hasTimer := false, kind := TableKind.super, progress := [⟨10, 5⟩] }

/-- Environment for the C4 witness: the clock stands at 0 and every query
attempt fails with code 1. -/
def envC4 : ConsumeEnv :=
  { time := fun _ => 0, queryCode := fun _ => 1, tables := fun _ => none }

/-- Witness for C4: the always-failing consume returns NULL after exactly 3
attempts with the subscription unchanged. -/
theorem c4_witness :
    (∀ i, envC4.queryCode i ≠ 0) ∧
    (∀ n, envC4.time n - subC4.lastSyncTime ≤ 10 * 60 * 1000) ∧
    taos_consume envC4 (some subC4) = (some subC4, false, 3) := by
  have h1 : ∀ i, envC4.queryCode i ≠ 0 := fun i => by norm_num [envC4]
  have h2 : ∀ n, envC4.time n - subC4.lastSyncTime ≤ 10 * 60 * 1000 := fun n => by
    norm_num [envC4, subC4]
  exact ⟨h1, h2, c4_retry_ceiling subC4 envC4 h1 h2⟩

/-- Fixture for C8: recently synchronized (`lastSyncTime = 50`), driven by a
timer, with one progress record. -/
def subC8 : SSub :=
  { topic := "t1", sqlstr := "select * from s", lastSyncTime := 50, lastConsumeTime := 0,
    interval := 0, hasTimer := true, kind := TableKind.super, progress := [⟨10, 5⟩] }

/-- Environment for C8: the clock stands at 100 and the first query attempt
succeeds; the resolver is never consulted, so no table can have been
observed as removed. -/
def envC8 : ConsumeEnv :=
  { time := fun _ => 100, queryCode := fun _ => 0, tables := fun _ => none }

/-- Claim C8 (code bug): on a successful query attempt `taos_consume`
updates `lastConsumeTime` as claimed, but it zeroes `lastSyncTime`
unconditionally (tscSub.c line 417) — here no topology refresh ever ran and
no table was removed, yet `lastSyncTime` drops from 50 to 0, contradicting
the comment at lines 415-416 that ties the reset to a removed meter. -/
theorem c8_success_always_zeroes_sync_time :
    taos_consume envC8 (some subC8) =
      (some { subC8 with lastSyncTime := 0, lastConsumeTime := 100 }, true, 1) := by
  decide

end TscSub
